import Mathlib

/-!
Shallow embedding of the orchestration core of biomedical_graphrag:
`orchestration/rate_limiter.py` (AdaptiveRateLimiter with token bucket,
sliding window, circuit breaker and retry), `orchestration/tasks.py`
(validate_data_consistency) and `orchestration/flows.py` (full_pipeline and
its fixed-parameter specializations).

Time is modelled by `ℚ`.  `asyncio.sleep d` advances the clock by `d` plus a
nonnegative overshoot supplied by an oracle (a sleep lasts at least the
requested duration).  Python exceptions become explicit result variants.
-/

deriving instance DecidableEq for Except

namespace BiomedGraphRAG

/-- Circuit breaker states (`CircuitState` in rate_limiter.py).  `opened`
embeds Python's `CircuitState.OPEN` (`open` is a Lean keyword). -/
inductive CircuitState
  | closed
  | opened
  | halfOpen
  deriving DecidableEq, Repr

/-- `RateLimitConfig` (rate_limiter.py): per-limiter rate limit settings. -/
structure RateLimitConfig where
  requests_per_second : ℚ
  requests_per_minute : ℕ
  burst_size : ℕ
  retry_attempts : ℕ
  base_delay : ℚ
  max_delay : ℚ
  circuit_failure_threshold : ℕ
  circuit_timeout : ℚ
  deriving DecidableEq, Repr

/-- The dataclass defaults of `RateLimitConfig`. -/
def defaultRateLimitConfig : RateLimitConfig :=
  { requests_per_second := 3
    requests_per_minute := 100
    burst_size := 10
    retry_attempts := 5
    base_delay := 1
    max_delay := 60
    circuit_failure_threshold := 5
    circuit_timeout := 300 }

/-- Mutable state of one `AdaptiveRateLimiter` instance. -/
structure LimiterState where
  tokens : ℚ
  last_update : ℚ
  request_times : List ℚ
  circuit_state : CircuitState
  failure_count : ℕ
  last_failure_time : Option ℚ
  success_count_in_half_open : ℕ
  deriving DecidableEq, Repr

/-- `AdaptiveRateLimiter.__init__` at construction time `t0`: a full token
bucket, an empty sliding window, and a CLOSED circuit. -/
def initLimiter (cfg : RateLimitConfig) (t0 : ℚ) : LimiterState :=
  { tokens := (cfg.burst_size : ℚ)
    last_update := t0
    request_times := []
    circuit_state := .closed
    failure_count := 0
    last_failure_time := none
    success_count_in_half_open := 0 }

/-- `_clean_old_requests`: pop entries older than one minute from the front
of the window. -/
def clean_old_requests (now : ℚ) (request_times : List ℚ) : List ℚ :=
  request_times.dropWhile (fun t => decide (t < now - 60))

/-- `collections.deque(maxlen := m).append`: append on the right, evicting
from the left when the deque is full. -/
def deque_append (maxlen : ℕ) (xs : List ℚ) (x : ℚ) : List ℚ :=
  let ys := xs ++ [x]
  if maxlen < ys.length then ys.drop (ys.length - maxlen) else ys

/-- `_check_circuit`: lazily move OPEN to HALF_OPEN once `circuit_timeout`
has elapsed since the last failure.  Python's `if self.last_failure_time and`
treats a stored time equal to `0.0` as falsy; the `t ≠ 0` conjunct embeds
that truthiness test. -/
def check_circuit (cfg : RateLimitConfig) (s : LimiterState) (now : ℚ) :
    LimiterState :=
  match s.circuit_state with
  | .opened =>
    match s.last_failure_time with
    | some t =>
      if t ≠ 0 ∧ cfg.circuit_timeout ≤ now - t then
        { s with circuit_state := .halfOpen, success_count_in_half_open := 0 }
      else s
    | none => s
  | _ => s

/-- `record_success`: in HALF_OPEN, three recorded successes close the
circuit and reset the failure count; in CLOSED, a success resets the failure
count; in OPEN, nothing changes. -/
def record_success (s : LimiterState) : LimiterState :=
  match s.circuit_state with
  | .halfOpen =>
    let s1 := { s with success_count_in_half_open := s.success_count_in_half_open + 1 }
    if 3 ≤ s1.success_count_in_half_open then
      { s1 with circuit_state := .closed, failure_count := 0 }
    else s1
  | .closed => { s with failure_count := 0 }
  | .opened => s

/-- `record_failure` at time `now`: count the failure, remember its time,
and open the circuit on any HALF_OPEN failure or once the failure count
reaches the threshold. -/
def record_failure (cfg : RateLimitConfig) (s : LimiterState) (now : ℚ) :
    LimiterState :=
  let s1 := { s with
    failure_count := s.failure_count + 1
    last_failure_time := some now }
  if s1.circuit_state = .halfOpen then { s1 with circuit_state := .opened }
  else if cfg.circuit_failure_threshold ≤ s1.failure_count then
    { s1 with circuit_state := .opened }
  else s1

/-- Result of one `acquire()` call.  `circuitOpenError` embeds the
`RuntimeError("Circuit breaker is OPEN - too many failures")` raised when
the breaker is OPEN (the spec taxonomy's CircuitOpenError); it carries the
limiter state, which the raise leaves untouched. -/
inductive AcquireResult
  | circuitOpenError (msg : String) (s : LimiterState)
  | ok (s : LimiterState) (finish : ℚ)
  deriving DecidableEq, Repr

/-- The token refill of `acquire`: add elapsed time times the rate, capped
at the burst size. -/
def refill_tokens (cfg : RateLimitConfig) (tokens last_update now : ℚ) : ℚ :=
  min (cfg.burst_size : ℚ)
    (tokens + (now - last_update) * cfg.requests_per_second)

/-- The per-minute gate of `acquire`: if the cleaned window is saturated,
sleep until the oldest entry ages out (plus the overshoot `mo`) and clean
again.  Returns the surviving window and the clock after the gate; `none`
embeds the `self.request_times[0]` IndexError, reachable only when
`requests_per_minute = 0`. -/
def minute_gate (cfg : RateLimitConfig) (now mo : ℚ) (rt1 : List ℚ) :
    Option (List ℚ × ℚ) :=
  if cfg.requests_per_minute ≤ rt1.length then
    match rt1 with
    | [] => none
    | oldest :: _ =>
      let wait := 60 - (now - oldest)
      if 0 < wait then
        let now2 := now + wait + mo
        some (clean_old_requests now2 rt1, now2)
      else some (rt1, now)
  else some (rt1, now)

/-- The `while self.tokens < 1` loop of `acquire`: sleep for the computed
deficit time plus the overshoot `lo`, refill from `last_update`, re-check.
The triple is `(tokens, last_update, now)`. `fuel` bounds how many
iterations the model unfolds; `none` means the bound was reached with still
fewer than one token. -/
def token_wait_loop (cfg : RateLimitConfig) (lo : ℚ) :
    ℕ → ℚ × ℚ × ℚ → Option (ℚ × ℚ × ℚ)
  | 0, st => if st.1 < 1 then none else some st
  | fuel + 1, (tokens, last_update, now) =>
    if tokens < 1 then
      let wait := (1 - tokens) / cfg.requests_per_second
      let now2 := now + wait + lo
      token_wait_loop cfg lo fuel
        (refill_tokens cfg tokens last_update now2, now2, now2)
    else some (tokens, last_update, now)

/-- `AdaptiveRateLimiter.acquire` issued at clock time `now`.  `mo` and `lo`
are the sleep overshoots of the per-minute wait and of the token wait.
Returns `none` when the model gets stuck (see `minute_gate` and
`token_wait_loop`). -/
def acquire (cfg : RateLimitConfig) (s : LimiterState) (now : ℚ)
    (mo lo : ℚ) (fuel : ℕ) : Option AcquireResult :=
  let s1 := check_circuit cfg s now
  if s1.circuit_state = .opened then
    some (.circuitOpenError "Circuit breaker is OPEN - too many failures" s1)
  else
    let tokens1 := refill_tokens cfg s1.tokens s1.last_update now
    match minute_gate cfg now mo (clean_old_requests now s1.request_times) with
    | none => none
    | some (rt2, now2) =>
      match token_wait_loop cfg lo fuel (tokens1, now, now2) with
      | none => none
      | some (tokensF, luF, now3) =>
        some (.ok { s1 with
          tokens := tokensF - 1
          last_update := luF
          request_times := deque_append cfg.requests_per_minute rt2 now3 } now3)

/-- `n` back-to-back `acquire` calls on one limiter created at time `t0`:
each call is issued at the instant the previous one returned.  `mo i` and
`lo i` are the sleep overshoots of call `i`; the token-wait fuel is 1 per
call (a single sleep always suffices when `burst_size ≥ 1`, proved below). -/
def acquire_seq (cfg : RateLimitConfig) (mo lo : ℕ → ℚ) (t0 : ℚ) :
    ℕ → Option (LimiterState × ℚ)
  | 0 => some (initLimiter cfg t0, t0)
  | n + 1 =>
    match acquire_seq cfg mo lo t0 n with
    | some (s, t) =>
      match acquire cfg s t (mo n) (lo n) 1 with
      | some (.ok s2 t2) => some (s2, t2)
      | _ => none
    | none => none

/-- `record_failure` folded over a list of failure times (consecutive
`record_failure` calls with no intervening success). -/
def record_failures (cfg : RateLimitConfig) (s : LimiterState) (ts : List ℚ) :
    LimiterState :=
  ts.foldl (fun s1 t => record_failure cfg s1 t) s

/-- Python exception values that flow through `execute_with_retry`: the
RuntimeError raised by `acquire` while the breaker is OPEN, and the wrapped
operation's own exceptions, tagged by invocation index so that exception
object identity is expressible. -/
inductive PyExc
  | circuitOpenExc (msg : String)
  | opExc (idx : ℕ)
  deriving DecidableEq, Repr

/-- What `raise last_exception` at the end of `execute_with_retry` raises:
`raiseNone` is the TypeError Python raises for `raise None`, reached only
when the loop body never ran. -/
inductive RaisedExc
  | raiseNone
  | raised (e : PyExc)
  deriving DecidableEq, Repr

/-- Observable outcome of one `execute_with_retry` call. -/
structure RetryResult (α : Type) where
  result : Except RaisedExc α
  invocations : ℕ
  sleeps : List ℚ
  state : LimiterState
  now : ℚ

/-- The jittered exponential backoff sleep before the attempt after attempt
`a`: `delay = min(base_delay * 2 ** attempt, max_delay)` plus the jitter
`delay * 0.2 * u a` where `u a = 2 * random.random() - 1 ∈ [-1, 1]`. -/
def backoff_sleep (cfg : RateLimitConfig) (u : ℕ → ℚ) (a : ℕ) : ℚ :=
  let delay := min (cfg.base_delay * 2 ^ a) cfg.max_delay
  delay + delay * (1 / 5) * u a

/-- The `for attempt in range(retry_attempts)` loop of `execute_with_retry`
with `remaining` iterations left (the current attempt index is
`retry_attempts - remaining`).  `op inv` is the wrapped operation's outcome
on its `inv`-th invocation (the operation itself is instantaneous in the
model); `u a ∈ [-1, 1]` is attempt `a`'s jitter draw `2 * random() - 1`;
`fuel` is the token-wait fuel handed to each `acquire`, whose own sleep
overshoots are 0 here.  A caught exception is recorded with `record_failure`
and, unless the attempt was the last, followed by the jittered backoff
sleep. -/
def retry_from (cfg : RateLimitConfig) (op : ℕ → Except PyExc α) (u : ℕ → ℚ)
    (fuel : ℕ) :
    ℕ → LimiterState → ℚ → ℕ → List ℚ → Option PyExc → Option (RetryResult α)
  | 0, s, now, inv, sleeps, last =>
    some ⟨.error (match last with | none => .raiseNone | some e => .raised e),
      inv, sleeps, s, now⟩
  | remaining + 1, s, now, inv, sleeps, _ =>
    let attempt := cfg.retry_attempts - (remaining + 1)
    match acquire cfg s now 0 0 fuel with
    | none => none
    | some (.circuitOpenError msg s1) =>
      let e := PyExc.circuitOpenExc msg
      let s2 := record_failure cfg s1 now
      if remaining = 0 then
        retry_from cfg op u fuel remaining s2 now inv sleeps (some e)
      else
        retry_from cfg op u fuel remaining s2 (now + backoff_sleep cfg u attempt)
          inv (sleeps ++ [backoff_sleep cfg u attempt]) (some e)
    | some (.ok s1 t1) =>
      match op inv with
      | .ok v => some ⟨.ok v, inv + 1, sleeps, record_success s1, t1⟩
      | .error e =>
        let s2 := record_failure cfg s1 t1
        if remaining = 0 then
          retry_from cfg op u fuel remaining s2 t1 (inv + 1) sleeps (some e)
        else
          retry_from cfg op u fuel remaining s2 (t1 + backoff_sleep cfg u attempt)
            (inv + 1) (sleeps ++ [backoff_sleep cfg u attempt]) (some e)

/-- `AdaptiveRateLimiter.execute_with_retry`, started at clock time `now` on
limiter state `s`. -/
def execute_with_retry (cfg : RateLimitConfig) (op : ℕ → Except PyExc α)
    (u : ℕ → ℚ) (fuel : ℕ) (s : LimiterState) (now : ℚ) :
    Option (RetryResult α) :=
  retry_from cfg op u fuel cfg.retry_attempts s now 0 [] none

/-- `validate_data_consistency`'s report dictionary (tasks.py). -/
structure ConsistencyReport where
  json_papers : ℕ
  neo4j_papers : ℕ
  qdrant_papers : ℕ
  is_consistent : Bool
  inconsistencies : List String
  deriving DecidableEq, Repr

/-- `validate_data_consistency` (tasks.py), as a function of the three
counts read from the JSON files, the Neo4j graph and the Qdrant collection:
the JSON count is compared pairwise with each store count. -/
def validate_data_consistency
    (json_paper_count neo4j_paper_count qdrant_paper_count : ℕ) :
    ConsistencyReport :=
  let inconsistencies :=
    (if json_paper_count ≠ neo4j_paper_count then
      ["JSON (" ++ toString json_paper_count ++ ") != Neo4j ("
        ++ toString neo4j_paper_count ++ ")"]
    else []) ++
    (if json_paper_count ≠ qdrant_paper_count then
      ["JSON (" ++ toString json_paper_count ++ ") != Qdrant ("
        ++ toString qdrant_paper_count ++ ")"]
    else [])
  { json_papers := json_paper_count
    neo4j_papers := neo4j_paper_count
    qdrant_papers := qdrant_paper_count
    is_consistent := inconsistencies.length = 0
    inconsistencies := inconsistencies }

/-- A stage invocation made by `full_pipeline` (flows.py), with the
arguments the flow passed to the task. -/
inductive StageCall
  | validateConfiguration
  | collectPubmedData (search_terms : List String) (max_results : ℕ)
  | collectGeneData
  | updateNeo4jGraph (incremental : Bool)
  | updateQdrantVectors (recreate_collection : Bool) (batch_size : ℕ)
  | validateDataConsistency
  deriving DecidableEq, Repr

/-- One pipeline stage as the flow observes it: the awaited task's outcome
(statistics value, or the text of the raised error) and its wall-clock
duration in seconds. -/
structure StageSim where
  result : Except String ℕ
  duration : ℚ
  deriving DecidableEq, Repr

/-- The six task behaviours `full_pipeline` awaits, as functions of the
arguments the flow passes to them. -/
structure PipelineTasks where
  validate_configuration : StageSim
  collect_pubmed_data : List String → ℕ → StageSim
  collect_gene_data : StageSim
  update_neo4j_graph : Bool → StageSim
  update_qdrant_vectors : Bool → ℕ → StageSim
  validate_data_consistency : StageSim

/-- Pipeline outcome status: `"status": "success"` of the returned
statistics, or the failure report of the except-branch. -/
inductive PipelineStatus
  | success
  | failed
  deriving DecidableEq, Repr

/-- The report `full_pipeline` emits: on success the summary of the returned
statistics, on failure the `pipeline-failure-report` artifact carrying the
error text and the elapsed duration. -/
structure PipelineReport where
  status : PipelineStatus
  error_text : Option String
  duration_seconds : ℚ
  deriving DecidableEq, Repr

/-- Observable outcome of one `full_pipeline` run: the stage invocations
that actually happened in order (with the arguments passed), the emitted
report, and what the flow hands its caller (`.error e` is the re-raised
exception). -/
structure PipelineRun where
  calls : List StageCall
  report : PipelineReport
  outcome : Except String (List ℕ)
  deriving DecidableEq, Repr

/-- The sequential try-block of `full_pipeline`: run the pending stages in
order, accumulating invocations, elapsed time and statistics; the first
failing stage aborts the run with a failure report and re-raises. -/
def run_stages :
    List (StageCall × StageSim) → List StageCall → ℚ → List ℕ → PipelineRun
  | [], calls, elapsed, stats => ⟨calls, ⟨.success, none, elapsed⟩, .ok stats⟩
  | (c, stage) :: rest, calls, elapsed, stats =>
    match stage.result with
    | .ok v => run_stages rest (calls ++ [c]) (elapsed + stage.duration) (stats ++ [v])
    | .error e => ⟨calls ++ [c], ⟨.failed, some e, elapsed + stage.duration⟩, .error e⟩

/-- `full_pipeline` (flows.py): the six stages in their fixed dependency
order. -/
def full_pipeline (tasks : PipelineTasks) (search_terms : List String)
    (max_results_per_term : ℕ)
    (incremental_graph_update recreate_vector_collection : Bool)
    (batch_size : ℕ) : PipelineRun :=
  run_stages
    [(.validateConfiguration, tasks.validate_configuration),
     (.collectPubmedData search_terms max_results_per_term,
       tasks.collect_pubmed_data search_terms max_results_per_term),
     (.collectGeneData, tasks.collect_gene_data),
     (.updateNeo4jGraph incremental_graph_update,
       tasks.update_neo4j_graph incremental_graph_update),
     (.updateQdrantVectors recreate_vector_collection batch_size,
       tasks.update_qdrant_vectors recreate_vector_collection batch_size),
     (.validateDataConsistency, tasks.validate_data_consistency)]
    [] 0 []

/-- `incremental_update` (flows.py): `full_pipeline` with MERGE-style graph
update and vector upsert without collection recreation. -/
def incremental_update (tasks : PipelineTasks) (search_terms : List String)
    (max_results_per_term batch_size : ℕ) : PipelineRun :=
  full_pipeline tasks search_terms max_results_per_term true false batch_size

/-- `full_rebuild` (flows.py): `full_pipeline` with destructive graph
rebuild and vector-collection recreation. -/
def full_rebuild (tasks : PipelineTasks) (search_terms : List String)
    (max_results_per_term batch_size : ℕ) : PipelineRun :=
  full_pipeline tasks search_terms max_results_per_term false true batch_size

/-- Does a stage call respect the fixed graph/vector flags of a pipeline
specialization? -/
def call_respects (inc rec : Bool) : StageCall → Bool
  | .updateNeo4jGraph i => i == inc
  | .updateQdrantVectors r _ => r == rec
  | _ => true

/-! ## Consistency validation (C7) -/

/-- C7: `validate_data_consistency` compares the flat-file JSON count
pairwise against the graph-store count and the vector-store count;
`is_consistent` is true iff there is no mismatch, i.e. iff all three counts
are equal; counts (10, 10, 10) yield a consistent report with no
inconsistencies, and counts (10, 9, 10) yield exactly one inconsistency
string naming the graph store and the two mismatched counts. -/
theorem validate_data_consistency_spec :
    (∀ j n q : ℕ,
      ((validate_data_consistency j n q).is_consistent = true ↔
        (j = n ∧ n = q ∧ j = q))) ∧
    validate_data_consistency 10 10 10 = ⟨10, 10, 10, true, []⟩ ∧
    validate_data_consistency 10 9 10 =
      ⟨10, 9, 10, false, ["JSON (10) != Neo4j (9)"]⟩ := by
  have key : ∀ j n q : ℕ,
      (validate_data_consistency j n q).is_consistent = true ↔ (j = n ∧ j = q) := by
    intro j n q
    unfold validate_data_consistency
    rcases eq_or_ne j n with h1 | h1 <;> rcases eq_or_ne j q with h2 | h2 <;>
      simp [h1, h2]
  refine ⟨fun j n q => ?_, by decide, by decide⟩
  rw [key j n q]
  constructor
  · intro h; omega
  · intro h; omega

/-! ## Pipeline specializations (C8) -/

/-- Every stage call `run_stages` records satisfies `p` when the accumulated
calls and the pending calls all do. -/
theorem run_stages_calls_all (p : StageCall → Bool) :
    ∀ (pending : List (StageCall × StageSim)) (calls : List StageCall)
      (elapsed : ℚ) (stats : List ℕ),
      calls.all p = true → (pending.map Prod.fst).all p = true →
      (run_stages pending calls elapsed stats).calls.all p = true := by
  intro pending
  induction pending with
  | nil =>
    intro calls elapsed stats h1 _
    simpa [run_stages] using h1
  | cons cs rest ih =>
    intro calls elapsed stats h1 h2
    obtain ⟨c, stage⟩ := cs
    simp only [List.map_cons, List.all_cons, Bool.and_eq_true] at h2
    cases hres : stage.result with
    | ok v =>
      simp only [run_stages, hres]
      exact ih _ _ _ (by simp [List.all_append, h1, h2.1]) h2.2
    | error e =>
      simp [run_stages, hres, List.all_append, h1, h2.1]

/-- C8: `incremental_update` invokes the graph stage with incremental = true
and the vector stage with recreate_collection = false, `full_rebuild` the
inverse, each being the corresponding fixed-parameter specialization of
`full_pipeline`. -/
theorem incremental_update_full_rebuild_spec (tasks : PipelineTasks)
    (search_terms : List String) (max_results_per_term batch_size : ℕ) :
    incremental_update tasks search_terms max_results_per_term batch_size
      = full_pipeline tasks search_terms max_results_per_term true false batch_size ∧
    (incremental_update tasks search_terms max_results_per_term batch_size).calls.all
      (call_respects true false) = true ∧
    full_rebuild tasks search_terms max_results_per_term batch_size
      = full_pipeline tasks search_terms max_results_per_term false true batch_size ∧
    (full_rebuild tasks search_terms max_results_per_term batch_size).calls.all
      (call_respects false true) = true := by
  refine ⟨rfl, ?_, rfl, ?_⟩ <;>
    exact run_stages_calls_all _ _ _ _ _ (by simp) (by simp [call_respects])

/-! ## Stage-2 failure aborts the pipeline (C6) -/

/-- C6: if the paper-collection stage fails, stages 3 to 6 never execute,
the failure report carries status failed with stage 2's error text and the
elapsed duration, and the same error propagates to the caller. -/
theorem full_pipeline_stage2_failure (tasks : PipelineTasks)
    (search_terms : List String) (max_results_per_term : ℕ)
    (inc rec : Bool) (batch_size : ℕ) (v1 : ℕ) (e : String)
    (h1 : tasks.validate_configuration.result = .ok v1)
    (h2 : (tasks.collect_pubmed_data search_terms max_results_per_term).result
      = .error e) :
    full_pipeline tasks search_terms max_results_per_term inc rec batch_size =
      ⟨[.validateConfiguration,
        .collectPubmedData search_terms max_results_per_term],
       ⟨.failed, some e,
         tasks.validate_configuration.duration
           + (tasks.collect_pubmed_data search_terms max_results_per_term).duration⟩,
       .error e⟩ := by
  simp [full_pipeline, run_stages, h1, h2]

/-- Concrete pipeline tasks whose paper-collection stage raises. -/
def sampleFailingTasks : PipelineTasks :=
  { validate_configuration := ⟨.ok 1, 2⟩
    collect_pubmed_data := fun _ _ => ⟨.error "PubMed API down", 3⟩
    collect_gene_data := ⟨.ok 7, 1⟩
    update_neo4j_graph := fun _ => ⟨.ok 7, 1⟩
    update_qdrant_vectors := fun _ _ => ⟨.ok 7, 1⟩
    validate_data_consistency := ⟨.ok 7, 1⟩ }

theorem full_pipeline_stage2_failure_witness :
    full_pipeline sampleFailingTasks ["CRISPR"] 10 true false 50 =
      ⟨[.validateConfiguration, .collectPubmedData ["CRISPR"] 10],
       ⟨.failed, some "PubMed API down", 5⟩, .error "PubMed API down"⟩ := by
  have h := full_pipeline_stage2_failure sampleFailingTasks ["CRISPR"] 10
    true false 50 1 "PubMed API down" rfl rfl
  rw [h]
  norm_num [sampleFailingTasks]

/-! ## Zero retry attempts (C10) -/

/-- C10: with retry_attempts = 0, `execute_with_retry` performs no attempt:
the wrapped operation is never invoked, no sleep happens, the limiter state
is untouched, and the call ends in `raise last_exception` with
last_exception still None -- Python's TypeError for raising None -- rather
than a result or an operation error. -/
theorem execute_with_retry_zero_attempts {α : Type} (cfg : RateLimitConfig)
    (hk : cfg.retry_attempts = 0) (op : ℕ → Except PyExc α) (u : ℕ → ℚ)
    (fuel : ℕ) (s : LimiterState) (now : ℚ) :
    execute_with_retry cfg op u fuel s now =
      some ⟨.error .raiseNone, 0, [], s, now⟩ := by
  simp [execute_with_retry, hk, retry_from]

/-- The default configuration with its retry budget set to zero. -/
def zeroRetryConfig : RateLimitConfig :=
  { defaultRateLimitConfig with retry_attempts := 0 }

theorem execute_with_retry_zero_attempts_witness :
    execute_with_retry zeroRetryConfig
        (fun i => (Except.error (PyExc.opExc i) : Except PyExc ℕ))
        (fun _ => 0) 1 (initLimiter zeroRetryConfig 0) 0 =
      some ⟨.error .raiseNone, 0, [], initLimiter zeroRetryConfig 0, 0⟩ :=
  execute_with_retry_zero_attempts zeroRetryConfig rfl _ _ 1 _ 0

/-! ## HALF_OPEN transitions (C2) -/

/-- One `record_success` in HALF_OPEN below the 3-success bar only counts
the success. -/
theorem record_success_halfOpen_below (s : LimiterState)
    (hs : s.circuit_state = .halfOpen) (h : s.success_count_in_half_open + 1 < 3) :
    record_success s =
      { s with success_count_in_half_open := s.success_count_in_half_open + 1 } := by
  unfold record_success
  rw [hs]
  simp [Nat.not_le.mpr h]

/-- The third consecutive `record_success` in HALF_OPEN closes the circuit
and resets the failure count. -/
theorem record_success_halfOpen_third (s : LimiterState)
    (hs : s.circuit_state = .halfOpen) (h : s.success_count_in_half_open = 2) :
    record_success s =
      { s with
          success_count_in_half_open := 3
          circuit_state := .closed
          failure_count := 0 } := by
  unfold record_success
  rw [hs]
  simp [h]

/-- Any `record_failure` while HALF_OPEN immediately reopens the circuit. -/
theorem record_failure_halfOpen (cfg : RateLimitConfig) (s : LimiterState)
    (t : ℚ) (hs : s.circuit_state = .halfOpen) :
    record_failure cfg s t =
      { s with
          failure_count := s.failure_count + 1
          last_failure_time := some t
          circuit_state := .opened } := by
  unfold record_failure
  simp [hs]

/-- C2: from the HALF_OPEN state with a fresh half-open success counter,
exactly 3 consecutive `record_success` calls close the circuit and reset
failure_count to 0, fewer than 3 leave it HALF_OPEN, and a single
`record_failure` while still HALF_OPEN reopens the circuit regardless of
how many successes were recorded before it. -/
theorem half_open_transitions (cfg : RateLimitConfig) (s : LimiterState)
    (t : ℚ) (hs : s.circuit_state = .halfOpen)
    (h0 : s.success_count_in_half_open = 0) :
    ((record_success (record_success (record_success s))).circuit_state = .closed ∧
      (record_success (record_success (record_success s))).failure_count = 0) ∧
    (record_success s).circuit_state = .halfOpen ∧
    (record_success (record_success s)).circuit_state = .halfOpen ∧
    (record_failure cfg s t).circuit_state = .opened ∧
    (record_failure cfg (record_success s) t).circuit_state = .opened ∧
    (record_failure cfg (record_success (record_success s)) t).circuit_state
      = .opened := by
  have h1 : record_success s = { s with success_count_in_half_open := 1 } := by
    rw [record_success_halfOpen_below s hs (by omega), h0]
  have h2 : record_success (record_success s)
      = { s with success_count_in_half_open := 2 } := by
    rw [h1, record_success_halfOpen_below _ (by simp [hs]) (by simp)]
  have h3 : record_success (record_success (record_success s))
      = { s with
            success_count_in_half_open := 3
            circuit_state := .closed
            failure_count := 0 } := by
    rw [h2, record_success_halfOpen_third _ (by simp [hs]) (by simp)]
  refine ⟨⟨by rw [h3], by rw [h3]⟩, by rw [h1]; exact hs, by rw [h2]; exact hs,
    ?_, ?_, ?_⟩
  · rw [record_failure_halfOpen cfg s t hs]
  · rw [record_failure_halfOpen cfg _ t (by rw [h1]; exact hs)]
  · rw [record_failure_halfOpen cfg _ t (by rw [h2]; exact hs)]

/-- A HALF_OPEN limiter state with a fresh half-open success counter. -/
def sampleHalfOpenState : LimiterState :=
  { tokens := 5, last_update := 0, request_times := []
    circuit_state := .halfOpen, failure_count := 4
    last_failure_time := some 100, success_count_in_half_open := 0 }

theorem half_open_transitions_witness :
    ((record_success (record_success (record_success sampleHalfOpenState))).circuit_state
        = .closed ∧
      (record_success (record_success (record_success sampleHalfOpenState))).failure_count
        = 0) ∧
    (record_success sampleHalfOpenState).circuit_state = .halfOpen ∧
    (record_success (record_success sampleHalfOpenState)).circuit_state = .halfOpen ∧
    (record_failure defaultRateLimitConfig sampleHalfOpenState 200).circuit_state
      = .opened ∧
    (record_failure defaultRateLimitConfig (record_success sampleHalfOpenState)
      200).circuit_state = .opened ∧
    (record_failure defaultRateLimitConfig
      (record_success (record_success sampleHalfOpenState)) 200).circuit_state
      = .opened :=
  half_open_transitions defaultRateLimitConfig sampleHalfOpenState 200 rfl rfl

/-! ## Circuit opening and fast-fail acquire (C1) -/

/-- `record_failure` from CLOSED while strictly below the threshold only
counts and timestamps the failure. -/
theorem record_failure_closed_below (cfg : RateLimitConfig) (s : LimiterState)
    (t : ℚ) (hc : s.circuit_state = .closed)
    (h : s.failure_count + 1 < cfg.circuit_failure_threshold) :
    record_failure cfg s t =
      { s with
          failure_count := s.failure_count + 1
          last_failure_time := some t } := by
  unfold record_failure
  simp [hc, Nat.not_le.mpr h]

/-- `record_failure` from CLOSED reaching the threshold opens the circuit. -/
theorem record_failure_closed_reach (cfg : RateLimitConfig) (s : LimiterState)
    (t : ℚ) (hc : s.circuit_state = .closed)
    (h : cfg.circuit_failure_threshold ≤ s.failure_count + 1) :
    record_failure cfg s t =
      { s with
          failure_count := s.failure_count + 1
          last_failure_time := some t
          circuit_state := .opened } := by
  unfold record_failure
  simp [hc, h]

/-- Starting CLOSED, a run of consecutive failures exactly reaching the
threshold opens the circuit, stamps the last failure's time, and leaves the
token bucket and the sliding window alone. -/
theorem record_failures_opens (cfg : RateLimitConfig) :
    ∀ (ts : List ℚ) (s : LimiterState) (tl : ℚ),
      s.circuit_state = .closed →
      s.failure_count + ts.length = cfg.circuit_failure_threshold →
      ts.getLast? = some tl →
      (record_failures cfg s ts).circuit_state = .opened ∧
      (record_failures cfg s ts).last_failure_time = some tl ∧
      (record_failures cfg s ts).failure_count = cfg.circuit_failure_threshold ∧
      (record_failures cfg s ts).request_times = s.request_times ∧
      (record_failures cfg s ts).tokens = s.tokens := by
  intro ts
  induction ts with
  | nil =>
    intro s tl _ _ hlast
    simp at hlast
  | cons t rest ih =>
    intro s tl hc hcount hlast
    cases rest with
    | nil =>
      simp only [List.getLast?_singleton, Option.some.injEq] at hlast
      subst hlast
      simp only [List.length_cons, List.length_nil] at hcount
      have hreach : cfg.circuit_failure_threshold ≤ s.failure_count + 1 := by omega
      simp only [record_failures, List.foldl_cons, List.foldl_nil]
      rw [record_failure_closed_reach cfg s t hc hreach]
      exact ⟨rfl, rfl, by simp; omega, rfl, rfl⟩
    | cons t2 rest2 =>
      have hbelow : s.failure_count + 1 < cfg.circuit_failure_threshold := by
        simp only [List.length_cons] at hcount
        omega
      have hlast2 : (t2 :: rest2).getLast? = some tl := by
        rwa [List.getLast?_cons_cons] at hlast
      have hstep := record_failure_closed_below cfg s t hc hbelow
      have hrec : record_failures cfg s (t :: t2 :: rest2)
          = record_failures cfg (record_failure cfg s t) (t2 :: rest2) := by
        simp [record_failures]
      rw [hrec, hstep]
      have := ih ({ s with
          failure_count := s.failure_count + 1
          last_failure_time := some t }) tl (by exact hc)
        (by
          show s.failure_count + 1 + (t2 :: rest2).length = cfg.circuit_failure_threshold
          simp only [List.length_cons] at hcount ⊢
          omega) hlast2
      exact ⟨this.1, this.2.1, this.2.2.1, this.2.2.2.1, this.2.2.2.2⟩

/-- While OPEN with `circuit_timeout` not yet elapsed since the last
failure, `acquire` raises the circuit-open RuntimeError immediately and the
state it carries back is the input state, untouched. -/
theorem acquire_while_open (cfg : RateLimitConfig) (s : LimiterState)
    (now mo lo : ℚ) (fuel : ℕ) (tf : ℚ)
    (hs : s.circuit_state = .opened) (hf : s.last_failure_time = some tf)
    (ht : now - tf < cfg.circuit_timeout) :
    acquire cfg s now mo lo fuel =
      some (.circuitOpenError "Circuit breaker is OPEN - too many failures" s) := by
  have hcc : check_circuit cfg s now = s := by
    simp only [check_circuit, hs, hf]
    rw [if_neg]
    push_neg
    intro _
    linarith
  simp [acquire, hcc, hs]

/-- C1: after `circuit_failure_threshold` consecutive `record_failure`
calls with no intervening success on a fresh limiter, the circuit is OPEN,
and a subsequent `acquire` made before `circuit_timeout` has elapsed since
the last recorded failure raises the circuit-open RuntimeError immediately
(the spec taxonomy's CircuitOpenError), carrying back the unchanged state,
whose `request_times` is still the fresh limiter's empty window and whose
`tokens` is still the full bucket. -/
theorem circuit_opens_and_acquire_rejects (cfg : RateLimitConfig) (t0 : ℚ)
    (ts : List ℚ) (tl now mo lo : ℚ) (fuel : ℕ)
    (hlen : ts.length = cfg.circuit_failure_threshold)
    (hlast : ts.getLast? = some tl)
    (ht : now - tl < cfg.circuit_timeout) :
    (record_failures cfg (initLimiter cfg t0) ts).circuit_state = .opened ∧
    acquire cfg (record_failures cfg (initLimiter cfg t0) ts) now mo lo fuel =
      some (.circuitOpenError "Circuit breaker is OPEN - too many failures"
        (record_failures cfg (initLimiter cfg t0) ts)) ∧
    (record_failures cfg (initLimiter cfg t0) ts).request_times = [] ∧
    (record_failures cfg (initLimiter cfg t0) ts).tokens = (cfg.burst_size : ℚ) := by
  obtain ⟨ho, hlf, _hfc, hrt, htok⟩ :=
    record_failures_opens cfg ts (initLimiter cfg t0) tl rfl
      (by simp [initLimiter, hlen]) hlast
  exact ⟨ho, acquire_while_open cfg _ now mo lo fuel tl ho hlf ht,
    by simpa [initLimiter] using hrt, by simpa [initLimiter] using htok⟩

theorem circuit_opens_and_acquire_rejects_witness :
    (record_failures defaultRateLimitConfig (initLimiter defaultRateLimitConfig 0)
        [1, 2, 3, 4, 5]).circuit_state = .opened ∧
    acquire defaultRateLimitConfig
        (record_failures defaultRateLimitConfig (initLimiter defaultRateLimitConfig 0)
          [1, 2, 3, 4, 5]) 10 0 0 1 =
      some (.circuitOpenError "Circuit breaker is OPEN - too many failures"
        (record_failures defaultRateLimitConfig (initLimiter defaultRateLimitConfig 0)
          [1, 2, 3, 4, 5])) ∧
    (record_failures defaultRateLimitConfig (initLimiter defaultRateLimitConfig 0)
        [1, 2, 3, 4, 5]).request_times = [] ∧
    (record_failures defaultRateLimitConfig (initLimiter defaultRateLimitConfig 0)
        [1, 2, 3, 4, 5]).tokens = ((defaultRateLimitConfig.burst_size : ℕ) : ℚ) :=
  circuit_opens_and_acquire_rejects defaultRateLimitConfig 0 [1, 2, 3, 4, 5]
    5 10 0 0 1 (by decide) (by decide) (by norm_num [defaultRateLimitConfig])

/-! ## Sliding-window invariants (C5) -/

/-- A bounded deque append never exceeds the capacity. -/
theorem deque_append_length_le (m : ℕ) (xs : List ℚ) (x : ℚ) :
    (deque_append m xs x).length ≤ m := by
  simp only [deque_append]
  split
  · simp only [List.length_drop]
    omega
  · rename_i hnot
    omega

/-- `record_success` never touches the sliding window. -/
theorem record_success_request_times (s : LimiterState) :
    (record_success s).request_times = s.request_times := by
  unfold record_success
  split
  · dsimp only
    split <;> rfl
  · rfl
  · rfl

/-- `record_failure` never touches the sliding window. -/
theorem record_failure_request_times (cfg : RateLimitConfig) (s : LimiterState)
    (t : ℚ) : (record_failure cfg s t).request_times = s.request_times := by
  simp only [record_failure]
  split
  · rfl
  · split <;> rfl

/-- After a successful `acquire`, the window holds at most
`requests_per_minute` entries. -/
theorem acquire_ok_window_bound (cfg : RateLimitConfig) (s : LimiterState)
    (now mo lo : ℚ) (fuel : ℕ) (s2 : LimiterState) (fin : ℚ)
    (h : acquire cfg s now mo lo fuel = some (.ok s2 fin)) :
    s2.request_times.length ≤ cfg.requests_per_minute := by
  simp only [acquire] at h
  split at h
  · simp at h
  · split at h
    · simp at h
    · split at h
      · simp at h
      · simp only [Option.some.injEq, AcquireResult.ok.injEq] at h
        obtain ⟨h1, _⟩ := h
        subst h1
        exact deque_append_length_le cfg.requests_per_minute _ _

/-- Immediately after `_clean_old_requests` runs at time `now` on a
time-ordered window, no surviving entry is older than 60 seconds. -/
theorem clean_old_requests_fresh (now : ℚ) (xs : List ℚ)
    (hs : List.Pairwise (· ≤ ·) xs) :
    ∀ x ∈ clean_old_requests now xs, now - 60 ≤ x := by
  induction xs with
  | nil => simp [clean_old_requests]
  | cons a l ih =>
    intro x hx
    rw [clean_old_requests, List.dropWhile_cons] at hx
    split at hx
    · exact ih hs.of_cons x hx
    · rename_i hcond
      have hge : now - 60 ≤ a := by
        rcases lt_or_le a (now - 60) with hlt | hle
        · exact absurd (by simpa using hlt) hcond
        · exact hle
      rcases List.mem_cons.mp hx with rfl | hxl
      · exact hge
      · exact le_trans hge ((List.pairwise_cons.mp hs).1 x hxl)

/-- C5: the sliding window holds at most `requests_per_minute` entries at
all times -- empty at construction, bounded again after every successful
`acquire`, and untouched by the circuit feedback hooks -- and immediately
after `_clean_old_requests` runs at the current time on the time-ordered
window inside `acquire`, no entry is older than 60 seconds. -/
theorem sliding_window_spec (cfg : RateLimitConfig) (t0 : ℚ)
    (s : LimiterState) (now mo lo : ℚ) (fuel : ℕ) (s2 : LimiterState) (fin : ℚ)
    (hacq : acquire cfg s now mo lo fuel = some (.ok s2 fin))
    (tnow : ℚ) (xs : List ℚ) (hxs : List.Pairwise (· ≤ ·) xs) :
    (initLimiter cfg t0).request_times.length ≤ cfg.requests_per_minute ∧
    s2.request_times.length ≤ cfg.requests_per_minute ∧
    (∀ s3 : LimiterState, (record_success s3).request_times = s3.request_times) ∧
    (∀ (s3 : LimiterState) (t : ℚ),
      (record_failure cfg s3 t).request_times = s3.request_times) ∧
    (∀ x ∈ clean_old_requests tnow xs, tnow - 60 ≤ x) :=
  ⟨by simp [initLimiter],
   acquire_ok_window_bound cfg s now mo lo fuel s2 fin hacq,
   record_success_request_times,
   fun s3 t => record_failure_request_times cfg s3 t,
   clean_old_requests_fresh tnow xs hxs⟩

theorem sliding_window_spec_witness :
    (initLimiter defaultRateLimitConfig 0).request_times.length
        ≤ defaultRateLimitConfig.requests_per_minute ∧
    (⟨9, 0, [0], .closed, 0, none, 0⟩ : LimiterState).request_times.length
        ≤ defaultRateLimitConfig.requests_per_minute ∧
    (∀ s3 : LimiterState, (record_success s3).request_times = s3.request_times) ∧
    (∀ (s3 : LimiterState) (t : ℚ),
      (record_failure defaultRateLimitConfig s3 t).request_times
        = s3.request_times) ∧
    (∀ x ∈ clean_old_requests 70 [1, 2], (70 : ℚ) - 60 ≤ x) :=
  sliding_window_spec defaultRateLimitConfig 0
    (initLimiter defaultRateLimitConfig 0) 0 0 0 1
    ⟨9, 0, [0], .closed, 0, none, 0⟩ 0
    (by
      norm_num [acquire, check_circuit, refill_tokens, minute_gate,
        token_wait_loop, clean_old_requests, deque_append, initLimiter,
        defaultRateLimitConfig, min_def]
      exact fun h => nomatch h)
    70 [1, 2] (by simp)

/-! ## Token-bucket pacing (C4) -/

/-- A refill never exceeds the burst capacity. -/
theorem refill_tokens_le_burst (cfg : RateLimitConfig) (tokens lu now : ℚ) :
    refill_tokens cfg tokens lu now ≤ (cfg.burst_size : ℚ) :=
  min_le_left _ _

/-- A forward-time refill keeps the token count nonnegative. -/
theorem refill_tokens_nonneg (cfg : RateLimitConfig) (tokens lu now : ℚ)
    (htok : 0 ≤ tokens) (hlu : lu ≤ now) (hr : 0 ≤ cfg.requests_per_second) :
    0 ≤ refill_tokens cfg tokens lu now := by
  unfold refill_tokens
  have h1 : (0 : ℚ) ≤ (cfg.burst_size : ℚ) := by positivity
  have h2 : 0 ≤ tokens + (now - lu) * cfg.requests_per_second := by
    have := mul_nonneg (sub_nonneg.mpr hlu) hr
    linarith
  exact le_min h1 h2

/-- A refill never increases `tokens - rate * last_update`: the capped
refill cannot create tokens faster than the rate. -/
theorem refill_tokens_val (cfg : RateLimitConfig) (tokens lu now : ℚ) :
    refill_tokens cfg tokens lu now - cfg.requests_per_second * now ≤
      tokens - cfg.requests_per_second * lu := by
  have h := min_le_right ((cfg.burst_size : ℚ))
    (tokens + (now - lu) * cfg.requests_per_second)
  unfold refill_tokens
  nlinarith [h]

/-- With a nonempty capacity the minute gate always comes back, never
moving the clock backwards. -/
theorem minute_gate_total (cfg : RateLimitConfig) (now mo : ℚ) (rt1 : List ℚ)
    (hm : 1 ≤ cfg.requests_per_minute) (hmo : 0 ≤ mo) :
    ∃ rt2 now2, minute_gate cfg now mo rt1 = some (rt2, now2) ∧ now ≤ now2 := by
  unfold minute_gate
  split
  · rename_i hsat
    cases rt1 with
    | nil =>
      simp only [List.length_nil] at hsat
      omega
    | cons oldest rest =>
      dsimp only
      split
      · rename_i hw
        exact ⟨_, _, rfl, by linarith⟩
      · exact ⟨_, _, rfl, le_refl now⟩
  · exact ⟨rt1, now, rfl, le_refl now⟩

/-- A token-wait loop entered with at least one token exits at once. -/
theorem token_wait_loop_done (cfg : RateLimitConfig) (lo : ℚ) (fuel : ℕ)
    (tokens lu now : ℚ) (h : 1 ≤ tokens) :
    token_wait_loop cfg lo fuel (tokens, lu, now) = some (tokens, lu, now) := by
  cases fuel with
  | zero => simp [token_wait_loop, not_lt.mpr h]
  | succ n => simp [token_wait_loop, not_lt.mpr h]

/-- One unit of fuel lets the token-wait loop terminate with at least one
token (and at most the burst), without moving the clock backwards and
without increasing `tokens - rate * last_update`. -/
theorem token_wait_loop_spec (cfg : RateLimitConfig) (lo : ℚ) (fuel : ℕ)
    (tokens lu now : ℚ)
    (hr : 0 < cfg.requests_per_second) (hb : 1 ≤ (cfg.burst_size : ℚ))
    (hlo : 0 ≤ lo) (hlu : lu ≤ now) (htokle : tokens ≤ (cfg.burst_size : ℚ)) :
    ∃ tokensF luF now3,
      token_wait_loop cfg lo (fuel + 1) (tokens, lu, now)
        = some (tokensF, luF, now3) ∧
      1 ≤ tokensF ∧ tokensF ≤ (cfg.burst_size : ℚ) ∧
      now ≤ now3 ∧ luF ≤ now3 ∧
      tokensF - cfg.requests_per_second * luF ≤
        tokens - cfg.requests_per_second * lu := by
  simp only [token_wait_loop]
  split
  · rename_i hlt
    have hwpos : 0 < (1 - tokens) / cfg.requests_per_second :=
      div_pos (by linarith) hr
    have hge : 1 ≤ refill_tokens cfg tokens lu
        (now + (1 - tokens) / cfg.requests_per_second + lo) := by
      unfold refill_tokens
      refine le_min hb ?_
      have hmul : (1 - tokens) / cfg.requests_per_second * cfg.requests_per_second
          = 1 - tokens := div_mul_cancel₀ _ (ne_of_gt hr)
      have hrest : 0 ≤ ((now - lu) + lo) * cfg.requests_per_second :=
        mul_nonneg (by linarith) (le_of_lt hr)
      nlinarith [hmul, hrest]
    rw [token_wait_loop_done cfg lo fuel _ _ _ hge]
    refine ⟨_, _, _, rfl, hge, refill_tokens_le_burst cfg _ _ _, by linarith,
      le_refl _, ?_⟩
    have := refill_tokens_val cfg tokens lu
      (now + (1 - tokens) / cfg.requests_per_second + lo)
    linarith
  · rename_i hnlt
    exact ⟨tokens, lu, now, rfl, not_lt.mp hnlt, htokle, le_refl now, hlu,
      le_refl _⟩

/-- `check_circuit` is the identity on a CLOSED circuit. -/
theorem check_circuit_closed (cfg : RateLimitConfig) (s : LimiterState)
    (now : ℚ) (hc : s.circuit_state = .closed) :
    check_circuit cfg s now = s := by
  unfold check_circuit
  rw [hc]

/-- One `acquire` on a CLOSED limiter with sane configuration always
succeeds with one unit of token fuel, consumes exactly one token (so
`tokens - rate * last_update` drops by at least one), keeps the token count
within `[0, burst_size]`, and never moves the clock backwards. -/
theorem acquire_closed_step (cfg : RateLimitConfig) (s : LimiterState)
    (now mo lo : ℚ)
    (hr : 0 < cfg.requests_per_second) (hb : 1 ≤ cfg.burst_size)
    (hm : 1 ≤ cfg.requests_per_minute) (hmo : 0 ≤ mo) (hlo : 0 ≤ lo)
    (hc : s.circuit_state = .closed) (htok : 0 ≤ s.tokens)
    (hlu : s.last_update ≤ now) :
    ∃ s2 fin, acquire cfg s now mo lo 1 = some (.ok s2 fin) ∧
      s2.circuit_state = .closed ∧
      0 ≤ s2.tokens ∧ s2.tokens ≤ (cfg.burst_size : ℚ) ∧
      s2.last_update ≤ fin ∧ now ≤ fin ∧
      s2.tokens - cfg.requests_per_second * s2.last_update ≤
        s.tokens - cfg.requests_per_second * s.last_update - 1 ∧
      s2.failure_count = s.failure_count ∧
      s2.last_failure_time = s.last_failure_time ∧
      s2.success_count_in_half_open = s.success_count_in_half_open := by
  have hb' : (1 : ℚ) ≤ (cfg.burst_size : ℚ) := by exact_mod_cast hb
  obtain ⟨rt2, now2, hmg, hnow2⟩ := minute_gate_total cfg now mo
    (clean_old_requests now s.request_times) hm hmo
  obtain ⟨tokensF, luF, now3, hloop, h1F, hFle, hn3, hluF, hval⟩ :=
    token_wait_loop_spec cfg lo 0 (refill_tokens cfg s.tokens s.last_update now)
      now now2 hr hb' hlo hnow2 (refill_tokens_le_burst cfg _ _ _)
  have hloop' : token_wait_loop cfg lo 1
      (refill_tokens cfg s.tokens s.last_update now, now, now2)
      = some (tokensF, luF, now3) := by simpa using hloop
  have hacq : acquire cfg s now mo lo 1 =
      some (.ok { s with
          tokens := tokensF - 1
          last_update := luF
          request_times := deque_append cfg.requests_per_minute rt2 now3 }
        now3) := by
    simp only [acquire]
    rw [check_circuit_closed cfg s now hc]
    rw [if_neg (by rw [hc]; decide)]
    rw [hmg]
    dsimp only
    rw [hloop']
  refine ⟨_, now3, hacq, hc, ?_, ?_, hluF, by linarith, ?_, rfl, rfl, rfl⟩
  · show (0 : ℚ) ≤ tokensF - 1
    linarith
  · show tokensF - 1 ≤ (cfg.burst_size : ℚ)
    linarith
  · have hrv := refill_tokens_val cfg s.tokens s.last_update now
    show tokensF - 1 - cfg.requests_per_second * luF ≤ _
    linarith

/-- The invariant carried across `n` back-to-back acquisitions on a fresh
limiter: the circuit stays CLOSED, the token count stays within
`[0, burst_size]`, the clock only advances, and `tokens - rate *
last_update` has dropped by at least `n` below its initial value. -/
theorem acquire_seq_invariant (cfg : RateLimitConfig) (mo lo : ℕ → ℚ)
    (t0 : ℚ)
    (hr : 0 < cfg.requests_per_second) (hb : 1 ≤ cfg.burst_size)
    (hm : 1 ≤ cfg.requests_per_minute)
    (hmo : ∀ i, 0 ≤ mo i) (hlo : ∀ i, 0 ≤ lo i) :
    ∀ n, ∃ s T, acquire_seq cfg mo lo t0 n = some (s, T) ∧
      s.circuit_state = .closed ∧ 0 ≤ s.tokens ∧
      s.tokens ≤ (cfg.burst_size : ℚ) ∧ s.last_update ≤ T ∧ t0 ≤ T ∧
      s.tokens - cfg.requests_per_second * s.last_update ≤
        (cfg.burst_size : ℚ) - cfg.requests_per_second * t0 - n := by
  intro n
  induction n with
  | zero =>
    refine ⟨initLimiter cfg t0, t0, rfl, rfl, ?_, le_refl _,
      le_refl _, le_refl _, ?_⟩
    · show (0 : ℚ) ≤ (cfg.burst_size : ℚ)
      positivity
    · simp [initLimiter]
  | succ n ih =>
    obtain ⟨s, T, hseq, hc, h0, hle, hluT, ht0, hval⟩ := ih
    obtain ⟨s2, fin, hacq, hc2, h02, hle2, hlu2, hTfin, hval2, _, _, _⟩ :=
      acquire_closed_step cfg s T (mo n) (lo n) hr hb hm (hmo n) (hlo n)
        hc h0 hluT
    refine ⟨s2, fin, ?_, hc2, h02, hle2, hlu2, by linarith, ?_⟩
    · simp [acquire_seq, hseq, hacq]
    · push_cast
      linarith

/-- C4: issuing `N` back-to-back acquisitions on a fresh, otherwise-idle
limiter takes at least `(N - burst_size) / requests_per_second` seconds:
tokens refill continuously at the configured rate capped at the burst size,
`0 ≤ tokens ≤ burst_size` holds throughout, and each successful acquire
consumes one token, suspending while fewer than one token is available. -/
theorem token_bucket_pacing (cfg : RateLimitConfig) (mo lo : ℕ → ℚ)
    (t0 : ℚ) (N : ℕ)
    (hr : 0 < cfg.requests_per_second) (hb : 1 ≤ cfg.burst_size)
    (hm : 1 ≤ cfg.requests_per_minute)
    (hmo : ∀ i, 0 ≤ mo i) (hlo : ∀ i, 0 ≤ lo i) :
    ∃ s T, acquire_seq cfg mo lo t0 N = some (s, T) ∧
      ((N : ℚ) - (cfg.burst_size : ℚ)) / cfg.requests_per_second ≤ T - t0 ∧
      0 ≤ s.tokens ∧ s.tokens ≤ (cfg.burst_size : ℚ) := by
  obtain ⟨s, T, hseq, _hc, h0, hle, hluT, _ht0, hval⟩ :=
    acquire_seq_invariant cfg mo lo t0 hr hb hm hmo hlo N
  refine ⟨s, T, hseq, ?_, h0, hle⟩
  rw [div_le_iff₀ hr]
  have h1 : cfg.requests_per_second * s.last_update
      ≤ cfg.requests_per_second * T :=
    mul_le_mul_of_nonneg_left hluT (le_of_lt hr)
  nlinarith [hval, h0, h1]

theorem token_bucket_pacing_witness :
    ∃ s T, acquire_seq defaultRateLimitConfig (fun _ => 0) (fun _ => 0) 0 11
        = some (s, T) ∧
      ((11 : ℚ) - ((defaultRateLimitConfig.burst_size : ℕ) : ℚ))
          / defaultRateLimitConfig.requests_per_second ≤ T - 0 ∧
      0 ≤ s.tokens ∧ s.tokens ≤ ((defaultRateLimitConfig.burst_size : ℕ) : ℚ) :=
  token_bucket_pacing defaultRateLimitConfig (fun _ => 0) (fun _ => 0) 0 11
    (by norm_num [defaultRateLimitConfig]) (by norm_num [defaultRateLimitConfig])
    (by norm_num [defaultRateLimitConfig])
    (fun _ => le_refl 0) (fun _ => le_refl 0)

/-! ## Retry loop with an always-failing operation (C3) -/

/-- With a jitter draw in [-1, 1] and nonnegative delay bounds, the
jittered backoff sleep is nonnegative. -/
theorem backoff_sleep_nonneg (cfg : RateLimitConfig) (u : ℕ → ℚ) (a : ℕ)
    (hbase : 0 ≤ cfg.base_delay) (hmax : 0 ≤ cfg.max_delay)
    (hu : |u a| ≤ 1) : 0 ≤ backoff_sleep cfg u a := by
  have hd : 0 ≤ min (cfg.base_delay * 2 ^ a) cfg.max_delay :=
    le_min (by positivity) hmax
  have h1 : -1 ≤ u a := (abs_le.mp hu).1
  have key : 0 ≤ min (cfg.base_delay * 2 ^ a) cfg.max_delay
      * (1 + 1 / 5 * u a) := mul_nonneg hd (by linarith)
  show 0 ≤ min (cfg.base_delay * 2 ^ a) cfg.max_delay
    + min (cfg.base_delay * 2 ^ a) cfg.max_delay * (1 / 5) * u a
  nlinarith [key]

/-- One iteration of the retry loop when `acquire` succeeds and the
operation raises: the failure is recorded and, unless the attempt was the
last, the jittered backoff sleep runs before the next iteration. -/
theorem retry_from_step_fail {α : Type} (cfg : RateLimitConfig)
    (op : ℕ → Except PyExc α) (u : ℕ → ℚ) (fuel rem : ℕ)
    (s s1 : LimiterState) (now t1 : ℚ) (inv : ℕ) (sleeps : List ℚ)
    (last : Option PyExc) (e : PyExc)
    (hacq : acquire cfg s now 0 0 fuel = some (.ok s1 t1))
    (hopinv : op inv = .error e) :
    retry_from cfg op u fuel (rem + 1) s now inv sleeps last =
      if rem = 0 then
        retry_from cfg op u fuel rem (record_failure cfg s1 t1) t1 (inv + 1)
          sleeps (some e)
      else
        retry_from cfg op u fuel rem (record_failure cfg s1 t1)
          (t1 + backoff_sleep cfg u (cfg.retry_attempts - (rem + 1))) (inv + 1)
          (sleeps ++ [backoff_sleep cfg u (cfg.retry_attempts - (rem + 1))])
          (some e) := by
  simp only [retry_from, hacq, hopinv]

/-- With an always-failing operation, a retry loop whose remaining attempts
(at least one, within both the retry budget and the circuit-failure
threshold) runs every attempt: each attempt acquires with the circuit still
CLOSED, invokes the operation once, records the failure, and sleeps the
jittered backoff except after the final attempt; the loop ends by
re-raising the very exception of the last invocation. -/
theorem retry_from_always_fail {α : Type} (cfg : RateLimitConfig)
    (op : ℕ → Except PyExc α) (err : ℕ → PyExc) (u : ℕ → ℚ)
    (hop : ∀ i, op i = .error (err i))
    (hr : 0 < cfg.requests_per_second) (hb : 1 ≤ cfg.burst_size)
    (hm : 1 ≤ cfg.requests_per_minute)
    (hbase : 0 ≤ cfg.base_delay) (hmax : 0 ≤ cfg.max_delay)
    (hu : ∀ a, |u a| ≤ 1) :
    ∀ (remaining : ℕ) (s : LimiterState) (now : ℚ) (inv : ℕ)
      (sleeps : List ℚ) (last : Option PyExc),
      1 ≤ remaining → remaining ≤ cfg.retry_attempts →
      s.circuit_state = .closed → 0 ≤ s.tokens →
      s.failure_count + remaining ≤ cfg.circuit_failure_threshold →
      s.last_update ≤ now →
      ∃ sF nowF,
        retry_from cfg op u 1 remaining s now inv sleeps last =
          some ⟨.error (.raised (err (inv + remaining - 1))), inv + remaining,
            sleeps ++ (List.range' (cfg.retry_attempts - remaining)
              (remaining - 1)).map (backoff_sleep cfg u), sF, nowF⟩ := by
  intro remaining
  induction remaining with
  | zero =>
    intro s now inv sleeps last h1 _ _ _ _ _
    omega
  | succ rem ih =>
    intro s now inv sleeps last _ hle hc htok hthr hlu
    obtain ⟨s1, t1, hacq, hc1, h01, _, hlu1, _, _, hfc1, _, _⟩ :=
      acquire_closed_step cfg s now 0 0 hr hb hm (le_refl 0) (le_refl 0)
        hc htok hlu
    have hstep := retry_from_step_fail cfg op u 1 rem s s1 now t1 inv sleeps
      last (err inv) hacq (hop inv)
    cases rem with
    | zero =>
      refine ⟨record_failure cfg s1 t1, t1, ?_⟩
      rw [hstep, if_pos rfl]
      simp [retry_from]
    | succ rem' =>
      have hbelow : s1.failure_count + 1 < cfg.circuit_failure_threshold := by
        simp only [hfc1]
        omega
      have hs2 := record_failure_closed_below cfg s1 t1 hc1 hbelow
      have hb0 : 0 ≤ backoff_sleep cfg u
          (cfg.retry_attempts - (rem' + 1 + 1)) :=
        backoff_sleep_nonneg cfg u _ hbase hmax (hu _)
      obtain ⟨sF, nowF, hrec⟩ := ih (record_failure cfg s1 t1)
        (t1 + backoff_sleep cfg u (cfg.retry_attempts - (rem' + 1 + 1)))
        (inv + 1)
        (sleeps ++ [backoff_sleep cfg u (cfg.retry_attempts - (rem' + 1 + 1))])
        (some (err inv))
        (by omega) (by omega)
        (by rw [hs2]; exact hc1)
        (by rw [hs2]; exact h01)
        (by rw [hs2]; show s1.failure_count + 1 + (rem' + 1) ≤ _; omega)
        (by rw [hs2]; show s1.last_update ≤ _; linarith)
      refine ⟨sF, nowF, ?_⟩
      rw [hstep, if_neg (Nat.succ_ne_zero rem')]
      rw [show inv + (rem' + 1 + 1) - 1 = inv + 1 + (rem' + 1) - 1 from by omega,
          show inv + (rem' + 1 + 1) = inv + 1 + (rem' + 1) from by omega,
          show rem' + 1 + 1 - 1 = rem' + 1 from by omega,
          List.range'_succ,
          show cfg.retry_attempts - (rem' + 1 + 1) + 1
            = cfg.retry_attempts - (rem' + 1) from by omega,
          List.map_cons]
      simp only [Nat.add_sub_cancel] at hrec
      simpa only [List.append_assoc, List.singleton_append] using hrec

/-- C3 (amended): for every retry budget k with
1 ≤ k ≤ circuit_failure_threshold, `execute_with_retry` on a fresh limiter
with an operation failing on every invocation invokes the operation exactly
k times, sleeps between consecutive attempts the jittered exponential
backoff min(base_delay * 2^attempt, max_delay) adjusted by at most 20
percent in either direction, and finally re-raises the exact exception
raised by the last attempt, not wrapped or replaced.  (For
k > circuit_failure_threshold the original claim fails: the circuit opens
and later attempts skip the operation, see the counterexample.) -/
theorem execute_with_retry_always_fail {α : Type} (cfg : RateLimitConfig)
    (op : ℕ → Except PyExc α) (err : ℕ → PyExc) (u : ℕ → ℚ) (t0 : ℚ)
    (hop : ∀ i, op i = .error (err i))
    (hk1 : 1 ≤ cfg.retry_attempts)
    (hkthr : cfg.retry_attempts ≤ cfg.circuit_failure_threshold)
    (hr : 0 < cfg.requests_per_second) (hb : 1 ≤ cfg.burst_size)
    (hm : 1 ≤ cfg.requests_per_minute)
    (hbase : 0 ≤ cfg.base_delay) (hmax : 0 ≤ cfg.max_delay)
    (hu : ∀ a, |u a| ≤ 1) :
    ∃ sF nowF,
      execute_with_retry cfg op u 1 (initLimiter cfg t0) t0 =
        some ⟨.error (.raised (err (cfg.retry_attempts - 1))),
          cfg.retry_attempts,
          (List.range (cfg.retry_attempts - 1)).map (backoff_sleep cfg u),
          sF, nowF⟩ ∧
      ∀ a, |backoff_sleep cfg u a - min (cfg.base_delay * 2 ^ a) cfg.max_delay|
        ≤ min (cfg.base_delay * 2 ^ a) cfg.max_delay * (1 / 5) := by
  obtain ⟨sF, nowF, hrun⟩ := retry_from_always_fail cfg op err u hop hr hb hm
    hbase hmax hu cfg.retry_attempts (initLimiter cfg t0) t0 0 [] none hk1
    (le_refl _) rfl
    (by show (0 : ℚ) ≤ (cfg.burst_size : ℚ); positivity)
    (by show 0 + cfg.retry_attempts ≤ _; omega) (le_refl t0)
  refine ⟨sF, nowF, ?_, ?_⟩
  · show retry_from cfg op u 1 cfg.retry_attempts (initLimiter cfg t0) t0
      0 [] none = _
    rw [hrun]
    simp [Nat.sub_self, List.range_eq_range']
  · intro a
    have hd : 0 ≤ min (cfg.base_delay * 2 ^ a) cfg.max_delay :=
      le_min (by positivity) hmax
    show |min (cfg.base_delay * 2 ^ a) cfg.max_delay
        + min (cfg.base_delay * 2 ^ a) cfg.max_delay * (1 / 5) * u a
        - min (cfg.base_delay * 2 ^ a) cfg.max_delay| ≤ _
    rw [add_sub_cancel_left, abs_mul]
    calc |min (cfg.base_delay * 2 ^ a) cfg.max_delay * (1 / 5)| * |u a|
        ≤ |min (cfg.base_delay * 2 ^ a) cfg.max_delay * (1 / 5)| * 1 :=
          mul_le_mul_of_nonneg_left (hu a) (abs_nonneg _)
      _ = min (cfg.base_delay * 2 ^ a) cfg.max_delay * (1 / 5) := by
          rw [mul_one, abs_of_nonneg (by positivity)]

theorem execute_with_retry_always_fail_witness :
    ∃ sF nowF,
      execute_with_retry defaultRateLimitConfig
          (fun i => (Except.error (PyExc.opExc i) : Except PyExc ℕ))
          (fun _ => 0) 1
          (initLimiter defaultRateLimitConfig 0) 0 =
        some ⟨.error (.raised (PyExc.opExc
            (defaultRateLimitConfig.retry_attempts - 1))),
          defaultRateLimitConfig.retry_attempts,
          (List.range (defaultRateLimitConfig.retry_attempts - 1)).map
            (backoff_sleep defaultRateLimitConfig (fun _ => 0)),
          sF, nowF⟩ ∧
      ∀ a, |backoff_sleep defaultRateLimitConfig (fun _ => 0) a
          - min (defaultRateLimitConfig.base_delay * 2 ^ a)
              defaultRateLimitConfig.max_delay|
        ≤ min (defaultRateLimitConfig.base_delay * 2 ^ a)
            defaultRateLimitConfig.max_delay * (1 / 5) :=
  execute_with_retry_always_fail defaultRateLimitConfig _ PyExc.opExc
    (fun _ => 0) 0 (fun _ => rfl)
    (by norm_num [defaultRateLimitConfig]) (by norm_num [defaultRateLimitConfig])
    (by norm_num [defaultRateLimitConfig]) (by norm_num [defaultRateLimitConfig])
    (by norm_num [defaultRateLimitConfig]) (by norm_num [defaultRateLimitConfig])
    (by norm_num [defaultRateLimitConfig]) (fun _ => by norm_num)

/-- The configuration of the C3 counterexample: a retry budget of 6 against
a circuit-failure threshold of 5 (zero base delay keeps the trace at time
zero). -/
def retrySixConfig : RateLimitConfig :=
  { requests_per_second := 1
    requests_per_minute := 100
    burst_size := 10
    retry_attempts := 6
    base_delay := 0
    max_delay := 60
    circuit_failure_threshold := 5
    circuit_timeout := 300 }

set_option maxHeartbeats 1600000 in
/-- C3 counterexample: with retry_attempts = 6 and an operation that fails
on every invocation, `execute_with_retry` invokes the operation only 5
times, not 6 -- the sixth attempt is rejected by the then-open circuit
before the operation is reached -- refuting the claim that every
always-failing run makes exactly `retry_attempts` invocations. -/
theorem execute_with_retry_six_not_six_invocations :
    (execute_with_retry retrySixConfig
        (fun i => (Except.error (PyExc.opExc i) : Except PyExc ℕ))
        (fun _ => 0) 1 (initLimiter retrySixConfig 0) 0).map
      (fun r => r.invocations) = some 5 ∧
    (execute_with_retry retrySixConfig
        (fun i => (Except.error (PyExc.opExc i) : Except PyExc ℕ))
        (fun _ => 0) 1 (initLimiter retrySixConfig 0) 0).map
      (fun r => r.invocations) ≠ some 6 := by
  set cfg := retrySixConfig with hcfg
  set op : ℕ → Except PyExc ℕ := fun i => Except.error (PyExc.opExc i) with hopdef
  set u : ℕ → ℚ := fun _ => 0 with hudef
  have hb0 : ∀ a, backoff_sleep cfg u a = 0 := by
    intro a
    norm_num [backoff_sleep, hcfg, retrySixConfig, hudef, min_def]
  have a1 : acquire cfg ⟨10, 0, [], .closed, 0, none, 0⟩ 0 0 0 1
      = some (.ok ⟨9, 0, [0], .closed, 0, none, 0⟩ 0) := by
    norm_num [acquire, check_circuit, refill_tokens, minute_gate,
      token_wait_loop, clean_old_requests, deque_append, hcfg,
      retrySixConfig, min_def]
    exact fun h => nomatch h
  have a2 : acquire cfg ⟨9, 0, [0], .closed, 1, some 0, 0⟩ 0 0 0 1
      = some (.ok ⟨8, 0, [0, 0], .closed, 1, some 0, 0⟩ 0) := by
    norm_num [acquire, check_circuit, refill_tokens, minute_gate,
      token_wait_loop, clean_old_requests, deque_append, hcfg,
      retrySixConfig, min_def]
    exact fun h => nomatch h
  have a3 : acquire cfg ⟨8, 0, [0, 0], .closed, 2, some 0, 0⟩ 0 0 0 1
      = some (.ok ⟨7, 0, [0, 0, 0], .closed, 2, some 0, 0⟩ 0) := by
    norm_num [acquire, check_circuit, refill_tokens, minute_gate,
      token_wait_loop, clean_old_requests, deque_append, hcfg,
      retrySixConfig, min_def]
    exact fun h => nomatch h
  have a4 : acquire cfg ⟨7, 0, [0, 0, 0], .closed, 3, some 0, 0⟩ 0 0 0 1
      = some (.ok ⟨6, 0, [0, 0, 0, 0], .closed, 3, some 0, 0⟩ 0) := by
    norm_num [acquire, check_circuit, refill_tokens, minute_gate,
      token_wait_loop, clean_old_requests, deque_append, hcfg,
      retrySixConfig, min_def]
    exact fun h => nomatch h
  have a5 : acquire cfg ⟨6, 0, [0, 0, 0, 0], .closed, 4, some 0, 0⟩ 0 0 0 1
      = some (.ok ⟨5, 0, [0, 0, 0, 0, 0], .closed, 4, some 0, 0⟩ 0) := by
    norm_num [acquire, check_circuit, refill_tokens, minute_gate,
      token_wait_loop, clean_old_requests, deque_append, hcfg,
      retrySixConfig, min_def]
    exact fun h => nomatch h
  have a6 : acquire cfg ⟨5, 0, [0, 0, 0, 0, 0], .opened, 5, some 0, 0⟩ 0 0 0 1
      = some (.circuitOpenError "Circuit breaker is OPEN - too many failures"
          ⟨5, 0, [0, 0, 0, 0, 0], .opened, 5, some 0, 0⟩) := by
    norm_num [acquire, check_circuit, hcfg, retrySixConfig]
  have r1 : record_failure cfg ⟨9, 0, [0], .closed, 0, none, 0⟩ 0
      = ⟨9, 0, [0], .closed, 1, some 0, 0⟩ := by
    norm_num [record_failure, hcfg, retrySixConfig]
    exact fun h => nomatch h
  have r2 : record_failure cfg ⟨8, 0, [0, 0], .closed, 1, some 0, 0⟩ 0
      = ⟨8, 0, [0, 0], .closed, 2, some 0, 0⟩ := by
    norm_num [record_failure, hcfg, retrySixConfig]
    exact fun h => nomatch h
  have r3 : record_failure cfg ⟨7, 0, [0, 0, 0], .closed, 2, some 0, 0⟩ 0
      = ⟨7, 0, [0, 0, 0], .closed, 3, some 0, 0⟩ := by
    norm_num [record_failure, hcfg, retrySixConfig]
    exact fun h => nomatch h
  have r4 : record_failure cfg ⟨6, 0, [0, 0, 0, 0], .closed, 3, some 0, 0⟩ 0
      = ⟨6, 0, [0, 0, 0, 0], .closed, 4, some 0, 0⟩ := by
    norm_num [record_failure, hcfg, retrySixConfig]
    exact fun h => nomatch h
  have r5 : record_failure cfg ⟨5, 0, [0, 0, 0, 0, 0], .closed, 4, some 0, 0⟩ 0
      = ⟨5, 0, [0, 0, 0, 0, 0], .opened, 5, some 0, 0⟩ := by
    norm_num [record_failure, hcfg, retrySixConfig]
  have r6 : record_failure cfg ⟨5, 0, [0, 0, 0, 0, 0], .opened, 5, some 0, 0⟩ 0
      = ⟨5, 0, [0, 0, 0, 0, 0], .opened, 6, some 0, 0⟩ := by
    norm_num [record_failure, hcfg, retrySixConfig]
  have step1 : ∀ (inv : ℕ) (sleeps : List ℚ) (last : Option PyExc),
      retry_from cfg op u 1 6 ⟨10, 0, [], .closed, 0, none, 0⟩ 0 inv sleeps last
        = retry_from cfg op u 1 5 ⟨9, 0, [0], .closed, 1, some 0, 0⟩ 0 (inv + 1)
            (sleeps ++ [0]) (some (.opExc inv)) := by
    intro inv sleeps last
    rw [show (6 : ℕ) = 5 + 1 from rfl,
      retry_from_step_fail cfg op u 1 5 _ _ 0 0 inv sleeps last
        (.opExc inv) a1 rfl,
      if_neg (by decide), r1, hb0]
    norm_num
  have step2 : ∀ (inv : ℕ) (sleeps : List ℚ) (last : Option PyExc),
      retry_from cfg op u 1 5 ⟨9, 0, [0], .closed, 1, some 0, 0⟩ 0 inv sleeps
          last
        = retry_from cfg op u 1 4 ⟨8, 0, [0, 0], .closed, 2, some 0, 0⟩ 0
            (inv + 1) (sleeps ++ [0]) (some (.opExc inv)) := by
    intro inv sleeps last
    rw [show (5 : ℕ) = 4 + 1 from rfl,
      retry_from_step_fail cfg op u 1 4 _ _ 0 0 inv sleeps last
        (.opExc inv) a2 rfl,
      if_neg (by decide), r2, hb0]
    norm_num
  have step3 : ∀ (inv : ℕ) (sleeps : List ℚ) (last : Option PyExc),
      retry_from cfg op u 1 4 ⟨8, 0, [0, 0], .closed, 2, some 0, 0⟩ 0 inv
          sleeps last
        = retry_from cfg op u 1 3 ⟨7, 0, [0, 0, 0], .closed, 3, some 0, 0⟩ 0
            (inv + 1) (sleeps ++ [0]) (some (.opExc inv)) := by
    intro inv sleeps last
    rw [show (4 : ℕ) = 3 + 1 from rfl,
      retry_from_step_fail cfg op u 1 3 _ _ 0 0 inv sleeps last
        (.opExc inv) a3 rfl,
      if_neg (by decide), r3, hb0]
    norm_num
  have step4 : ∀ (inv : ℕ) (sleeps : List ℚ) (last : Option PyExc),
      retry_from cfg op u 1 3 ⟨7, 0, [0, 0, 0], .closed, 3, some 0, 0⟩ 0 inv
          sleeps last
        = retry_from cfg op u 1 2 ⟨6, 0, [0, 0, 0, 0], .closed, 4, some 0, 0⟩ 0
            (inv + 1) (sleeps ++ [0]) (some (.opExc inv)) := by
    intro inv sleeps last
    rw [show (3 : ℕ) = 2 + 1 from rfl,
      retry_from_step_fail cfg op u 1 2 _ _ 0 0 inv sleeps last
        (.opExc inv) a4 rfl,
      if_neg (by decide), r4, hb0]
    norm_num
  have step5 : ∀ (inv : ℕ) (sleeps : List ℚ) (last : Option PyExc),
      retry_from cfg op u 1 2 ⟨6, 0, [0, 0, 0, 0], .closed, 4, some 0, 0⟩ 0 inv
          sleeps last
        = retry_from cfg op u 1 1
            ⟨5, 0, [0, 0, 0, 0, 0], .opened, 5, some 0, 0⟩ 0
            (inv + 1) (sleeps ++ [0]) (some (.opExc inv)) := by
    intro inv sleeps last
    rw [show (2 : ℕ) = 1 + 1 from rfl,
      retry_from_step_fail cfg op u 1 1 _ _ 0 0 inv sleeps last
        (.opExc inv) a5 rfl,
      if_neg (by decide), r5, hb0]
    norm_num
  have step6 : ∀ (inv : ℕ) (sleeps : List ℚ) (last : Option PyExc),
      retry_from cfg op u 1 1 ⟨5, 0, [0, 0, 0, 0, 0], .opened, 5, some 0, 0⟩ 0
          inv sleeps last
        = some ⟨.error (.raised (.circuitOpenExc
            "Circuit breaker is OPEN - too many failures")), inv, sleeps,
            ⟨5, 0, [0, 0, 0, 0, 0], .opened, 6, some 0, 0⟩, 0⟩ := by
    intro inv sleeps last
    rw [show (1 : ℕ) = 0 + 1 from rfl]
    simp [retry_from, a6, r6]
  have hrun : execute_with_retry cfg op u 1 (initLimiter cfg 0) 0
      = some ⟨.error (.raised (.circuitOpenExc
          "Circuit breaker is OPEN - too many failures")), 5, [0, 0, 0, 0, 0],
          ⟨5, 0, [0, 0, 0, 0, 0], .opened, 6, some 0, 0⟩, 0⟩ := by
    show retry_from cfg op u 1 6 ⟨10, 0, [], .closed, 0, none, 0⟩ 0 0 [] none
      = _
    rw [step1, step2, step3, step4, step5, step6]
    norm_num
  rw [hrun]
  exact ⟨rfl, by simp⟩

/-! ## Retrying against an open circuit (C9) -/

/-- `record_failure` on an OPEN circuit keeps it OPEN and only counts and
timestamps the failure. -/
theorem record_failure_opened (cfg : RateLimitConfig) (s : LimiterState)
    (t : ℚ) (hs : s.circuit_state = .opened) :
    record_failure cfg s t =
      { s with
          failure_count := s.failure_count + 1
          last_failure_time := some t } := by
  obtain ⟨tok, lu, rt, cs, fc, lf, sc⟩ := s
  subst hs
  simp only [record_failure]
  split
  · rename_i h
    exact absurd h (by simp)
  · split <;> rfl

/-- With positive delay bounds and a jitter draw in [-1, 1], the jittered
backoff sleep is strictly positive. -/
theorem backoff_sleep_pos (cfg : RateLimitConfig) (u : ℕ → ℚ) (a : ℕ)
    (hbase : 0 < cfg.base_delay) (hmax : 0 < cfg.max_delay)
    (hu : |u a| ≤ 1) : 0 < backoff_sleep cfg u a := by
  have hd : 0 < min (cfg.base_delay * 2 ^ a) cfg.max_delay :=
    lt_min (by positivity) hmax
  have h1 : -1 ≤ u a := (abs_le.mp hu).1
  have key : 0 < min (cfg.base_delay * 2 ^ a) cfg.max_delay
      * (1 + 1 / 5 * u a) := mul_pos hd (by linarith)
  show 0 < min (cfg.base_delay * 2 ^ a) cfg.max_delay
    + min (cfg.base_delay * 2 ^ a) cfg.max_delay * (1 / 5) * u a
  nlinarith [key]

/-- The jittered backoff sleep never exceeds `max_delay` plus a 20 percent
jitter allowance. -/
theorem backoff_sleep_le (cfg : RateLimitConfig) (u : ℕ → ℚ) (a : ℕ)
    (hbase : 0 ≤ cfg.base_delay) (hmax : 0 ≤ cfg.max_delay)
    (hu : |u a| ≤ 1) :
    backoff_sleep cfg u a ≤ cfg.max_delay + cfg.max_delay * (1 / 5) := by
  have hdle : min (cfg.base_delay * 2 ^ a) cfg.max_delay ≤ cfg.max_delay :=
    min_le_right _ _
  have hd : 0 ≤ min (cfg.base_delay * 2 ^ a) cfg.max_delay :=
    le_min (by positivity) hmax
  have h2 : u a ≤ 1 := (abs_le.mp hu).2
  have key : 0 ≤ min (cfg.base_delay * 2 ^ a) cfg.max_delay * (1 - u a) :=
    mul_nonneg hd (by linarith)
  show min (cfg.base_delay * 2 ^ a) cfg.max_delay
    + min (cfg.base_delay * 2 ^ a) cfg.max_delay * (1 / 5) * u a ≤ _
  nlinarith [key, hdle, hd]

/-- While the circuit stays OPEN and the timeout never elapses between
attempts, every remaining iteration of the retry loop is rejected by
`acquire` without invoking the operation, each rejection is recorded as a
failure stamped with the attempt's clock, and the loop finally re-raises
the circuit-open RuntimeError. -/
theorem retry_from_circuit_open {α : Type} (cfg : RateLimitConfig)
    (op : ℕ → Except PyExc α) (u : ℕ → ℚ) (fuel : ℕ)
    (hbase : 0 < cfg.base_delay) (hmax : 0 < cfg.max_delay)
    (hu : ∀ a, |u a| ≤ 1)
    (hto : cfg.max_delay + cfg.max_delay * (1 / 5) < cfg.circuit_timeout) :
    ∀ (remaining : ℕ) (s : LimiterState) (now : ℚ) (inv : ℕ)
      (sleeps : List ℚ) (last : Option PyExc) (tf : ℚ),
      1 ≤ remaining →
      s.circuit_state = .opened → s.last_failure_time = some tf →
      tf < now → now - tf < cfg.circuit_timeout →
      ∃ sF nowF sleepsF,
        retry_from cfg op u fuel remaining s now inv sleeps last =
          some ⟨.error (.raised (.circuitOpenExc
              "Circuit breaker is OPEN - too many failures")), inv, sleepsF,
            sF, nowF⟩ ∧
        sF.circuit_state = .opened ∧
        sF.failure_count = s.failure_count + remaining ∧
        sF.last_failure_time = some nowF ∧
        tf < nowF ∧ now ≤ nowF ∧
        sF.tokens = s.tokens ∧ sF.request_times = s.request_times := by
  intro remaining
  induction remaining with
  | zero =>
    intro s now inv sleeps last tf h1 _ _ _ _
    omega
  | succ rem ih =>
    intro s now inv sleeps last tf _ hs hf htf hto1
    have hacq := acquire_while_open cfg s now 0 0 fuel tf hs hf hto1
    have hrf := record_failure_opened cfg s now hs
    cases rem with
    | zero =>
      refine ⟨record_failure cfg s now, now, sleeps, ?_, ?_, ?_, ?_, htf,
        le_refl now, ?_, ?_⟩
      · simp [retry_from, hacq]
      · rw [hrf]; exact hs
      · rw [hrf]
      · rw [hrf]
      · rw [hrf]
      · rw [hrf]
    | succ rem' =>
      have hbpos : 0 < backoff_sleep cfg u
          (cfg.retry_attempts - (rem' + 1 + 1)) :=
        backoff_sleep_pos cfg u _ hbase hmax (hu _)
      have hble : backoff_sleep cfg u (cfg.retry_attempts - (rem' + 1 + 1))
          ≤ cfg.max_delay + cfg.max_delay * (1 / 5) :=
        backoff_sleep_le cfg u _ (le_of_lt hbase) (le_of_lt hmax) (hu _)
      obtain ⟨sF, nowF, sleepsF, hrec, hcF, hfcF, hlfF, htfF, hnowF, htokF,
        hrtF⟩ := ih (record_failure cfg s now)
        (now + backoff_sleep cfg u (cfg.retry_attempts - (rem' + 1 + 1)))
        inv
        (sleeps ++ [backoff_sleep cfg u (cfg.retry_attempts - (rem' + 1 + 1))])
        (some (.circuitOpenExc "Circuit breaker is OPEN - too many failures"))
        now (by omega)
        (by rw [hrf]; exact hs)
        (by rw [hrf])
        (by linarith)
        (by show now + _ - now < _; linarith)
      refine ⟨sF, nowF, sleepsF, ?_, hcF, ?_, hlfF, lt_trans htf htfF, ?_,
        ?_, ?_⟩
      · simp only [retry_from, hacq]
        rw [if_neg (Nat.succ_ne_zero rem')]
        exact hrec
      · rw [hfcF, hrf]
        show s.failure_count + 1 + (rem' + 1) = _
        omega
      · linarith
      · rw [htokF, hrf]
      · rw [hrtF, hrf]

/-- C9: while the circuit is OPEN and `circuit_timeout` has not elapsed
since the last failure, `execute_with_retry` never invokes the wrapped
operation: every attempt's `acquire` raises the circuit-open RuntimeError,
the rejection is caught and fed to `record_failure`, so each attempt
increments `failure_count` and moves `last_failure_time` to the attempt's
clock, pushing the OPEN to HALF_OPEN transition deadline further into the
future with every retried attempt, and the run re-raises the circuit-open
error. -/
theorem execute_with_retry_while_open {α : Type} (cfg : RateLimitConfig)
    (op : ℕ → Except PyExc α) (u : ℕ → ℚ) (fuel : ℕ) (s : LimiterState)
    (now tf : ℚ)
    (hk : 1 ≤ cfg.retry_attempts)
    (hbase : 0 < cfg.base_delay) (hmax : 0 < cfg.max_delay)
    (hu : ∀ a, |u a| ≤ 1)
    (hto : cfg.max_delay + cfg.max_delay * (1 / 5) < cfg.circuit_timeout)
    (hs : s.circuit_state = .opened) (hf : s.last_failure_time = some tf)
    (htf : tf < now) (h1 : now - tf < cfg.circuit_timeout) :
    ∃ sF nowF sleepsF,
      execute_with_retry cfg op u fuel s now =
        some ⟨.error (.raised (.circuitOpenExc
            "Circuit breaker is OPEN - too many failures")), 0, sleepsF,
          sF, nowF⟩ ∧
      sF.circuit_state = .opened ∧
      sF.failure_count = s.failure_count + cfg.retry_attempts ∧
      sF.last_failure_time = some nowF ∧ tf < nowF ∧
      sF.tokens = s.tokens ∧ sF.request_times = s.request_times := by
  obtain ⟨sF, nowF, sleepsF, hrec, hcF, hfcF, hlfF, htfF, _, htokF, hrtF⟩ :=
    retry_from_circuit_open cfg op u fuel hbase hmax hu hto
      cfg.retry_attempts s now 0 [] none tf hk hs hf htf h1
  exact ⟨sF, nowF, sleepsF, hrec, hcF, hfcF, hlfF, htfF, htokF, hrtF⟩

/-- An OPEN limiter state with its last failure recorded at time 0. -/
def sampleOpenState : LimiterState :=
  { tokens := 10, last_update := 0, request_times := []
    circuit_state := .opened, failure_count := 5
    last_failure_time := some 1, success_count_in_half_open := 0 }

theorem execute_with_retry_while_open_witness :
    ∃ sF nowF sleepsF,
      execute_with_retry defaultRateLimitConfig
          (fun i => (Except.error (PyExc.opExc i) : Except PyExc ℕ))
          (fun _ => 0) 1 sampleOpenState 10 =
        some ⟨.error (.raised (.circuitOpenExc
            "Circuit breaker is OPEN - too many failures")), 0, sleepsF,
          sF, nowF⟩ ∧
      sF.circuit_state = .opened ∧
      sF.failure_count = sampleOpenState.failure_count
        + defaultRateLimitConfig.retry_attempts ∧
      sF.last_failure_time = some nowF ∧ (1 : ℚ) < nowF ∧
      sF.tokens = sampleOpenState.tokens ∧
      sF.request_times = sampleOpenState.request_times :=
  execute_with_retry_while_open defaultRateLimitConfig _ (fun _ => 0) 1
    sampleOpenState 10 1
    (by norm_num [defaultRateLimitConfig]) (by norm_num [defaultRateLimitConfig])
    (by norm_num [defaultRateLimitConfig]) (fun _ => by norm_num)
    (by norm_num [defaultRateLimitConfig]) rfl rfl (by norm_num)
    (by norm_num [defaultRateLimitConfig])

end BiomedGraphRAG
